import Mathlib

/-
Verification development for the SEO traffic forecasting app
(src/seo-traffic-app.py): a shallow embedding of its data pipeline.

Modelling conventions:
* calendar timestamps are embedded as a year/month/day structure, since the
  source manipulates pandas datetimes at day resolution (the month-year
  parse yields day 1; the future date range with freq=M yields month ends);
* float values are embedded as rationals; where IEEE non-finite values
  matter (division by zero inside the MAPE average) an explicit
  finite / +infinity / NaN value type is used;
* the fitted Prophet model is a black box of the library, represented by an
  explicit predict function argument mapping a date to the continuous
  (yhat, yhat_lower, yhat_upper) triple.
-/

set_option maxRecDepth 8000

structure Date where
  year : Nat
  month : Nat
  day : Nat
deriving DecidableEq, Repr

/-- Total order key for dates (day < 32 always). -/
def dateKey (d : Date) : Nat := (d.year * 12 + d.month) * 32 + d.day

def isLeap (y : Nat) : Bool :=
  (y % 4 == 0 && y % 100 != 0) || y % 400 == 0

def daysInMonth (y m : Nat) : Nat :=
  if m = 2 then (if isLeap y then 29 else 28)
  else if m = 4 ∨ m = 6 ∨ m = 9 ∨ m = 11 then 30
  else 31

/-- The calendar month i months after month m of year y (m is 1-based). -/
def addMonths (y m i : Nat) : Nat × Nat :=
  let t := y * 12 + (m - 1) + i
  (t / 12, t % 12 + 1)

def monthEnd (ym : Nat × Nat) : Date :=
  ⟨ym.1, ym.2, daysInMonth ym.1 ym.2⟩

/-- pd.date_range(start, periods=n, freq=M): the month-end dates of n
consecutive months beginning with the month of start (the first month end
on or after a start day that lies on or before its month end, which is
always the case here). -/
def dateRangeMonthEnd (start : Date) (n : Nat) : List Date :=
  (List.range n).map (fun i => monthEnd (addMonths start.year start.month i))

/-- df[ds].max() over a nonempty list (arbitrary base value for []). -/
def lastDateOf (l : List Date) : Date :=
  match l with
  | [] => ⟨1970, 1, 1⟩
  | x :: xs => xs.foldl (fun a d => if dateKey a < dateKey d then d else a) x

/-- Embeds prophet.Prophet.make_future_dataframe with freq=M and
include_history=True: the history dates followed by the first periods
month-end dates strictly after the last history date. -/
def make_future_dataframe (history : List Date) (periods : Nat) : List Date :=
  let last := lastDateOf history
  let dates := dateRangeMonthEnd last (periods + 1)
  let dates2 := dates.filter (fun d => decide (dateKey last < dateKey d))
  history ++ dates2.take periods

/-- Executable integer floor of a rational (the denominator is positive,
so integer division of the numerator by the denominator is the floor). -/
def qfloor (q : ℚ) : ℤ := q.num / (q.den : ℤ)

/-- Embeds pandas Series.round(0): numpy rounding (half to even) to an
integer-valued number. -/
def qround (q : ℚ) : ℚ :=
  if q - qfloor q < 1/2 then (qfloor q : ℚ)
  else if 1/2 < q - qfloor q then (qfloor q : ℚ) + 1
  else if qfloor q % 2 = 0 then (qfloor q : ℚ) else (qfloor q : ℚ) + 1

structure ForecastRow where
  ds : Date
  yhat : ℚ
  yhat_lower : ℚ
  yhat_upper : ℚ
deriving DecidableEq, Repr

/-- Embeds forecast_traffic (src lines 9-35): build the future dataframe,
keep only dates strictly after the last historical date, predict, and round
the yhat / yhat_lower / yhat_upper columns in place before returning. -/
def forecast_traffic (df : List (Date × ℚ)) (forecast_period : Nat)
    (predict : Date → ℚ × ℚ × ℚ) : List ForecastRow :=
  let last_date := lastDateOf (df.map Prod.fst)
  let future0 := make_future_dataframe (df.map Prod.fst) forecast_period
  let future := future0.filter (fun d => decide (dateKey last_date < dateKey d))
  future.map (fun d =>
    { ds := d
      yhat := qround (predict d).1
      yhat_lower := qround (predict d).2.1
      yhat_upper := qround (predict d).2.2 })

/-- Embeds main lines 166-167: actuals = data[y] and
predictions = forecast[yhat][:len(actuals)] (positional slice of the
returned, already rounded, forecast column). -/
def pipelineMetricInput (df : List (Date × ℚ)) (period : Nat)
    (predict : Date → ℚ × ℚ × ℚ) : List ℚ × List ℚ :=
  (df.map Prod.snd,
    ((forecast_traffic df period predict).map ForecastRow.yhat).take
      (df.map Prod.snd).length)

structure TableRow where
  date : Date
  forecasted : ℚ
  optimistic : ℚ
  pessimistic : ℚ
deriving DecidableEq, Repr

/-- Embeds main lines 154-155: the displayed/exported table renames the
columns [ds, yhat, yhat_lower, yhat_upper] to
[Date, Forecasted Traffic, Optimistic Scenario, Pessimistic Scenario]. -/
def buildForecastTable (forecast : List ForecastRow) : List TableRow :=
  forecast.map (fun r => ⟨r.ds, r.yhat, r.yhat_lower, r.yhat_upper⟩)

def sampleMean (l : List ℚ) : ℚ := l.sum / (l.length : ℚ)

/-- Sum of squared deviations from the mean. -/
def sumSqDev (l : List ℚ) : ℚ :=
  (l.map (fun x => (x - sampleMean l) ^ 2)).sum

/-- The z-score filter of detect_anomalies: |x - mean| / std > 2 with
std = sqrt(sumSqDev / (n - 1)) (pandas default ddof=1), written with the
square root cleared: (x - mean)^2 * (n - 1) > 4 * sumSqDev. A NaN standard
deviation (n < 2) or a zero standard deviation makes the source comparison
false, and makes this inequality false as well. -/
def zFlag (l : List ℚ) (x : ℚ) : Bool :=
  decide (4 * sumSqDev l < (x - sampleMean l) ^ 2 * ((l.length : ℚ) - 1))

/-- Embeds detect_anomalies (src lines 37-41): keep the rows whose z-score
has absolute value above 2. -/
def detect_anomalies (data : List (Date × ℚ)) : List (Date × ℚ) :=
  data.filter (fun p => zFlag (data.map Prod.snd) p.2)

/-- Value of a float aggregate: finite, +infinity, or NaN. -/
inductive MVal where
  | fin (q : ℚ)
  | inf
  | nan
deriving DecidableEq, Repr

/-- One MAPE summand |(a - p) / a| under IEEE semantics: 0/0 is NaN, and a
nonzero numerator over zero is +infinity after the absolute value. -/
def mapeTerm (ap : ℚ × ℚ) : MVal :=
  if ap.1 = 0 then (if ap.2 = 0 then MVal.nan else MVal.inf)
  else MVal.fin |(ap.1 - ap.2) / ap.1|

def finPart : MVal → Option ℚ
  | MVal.fin q => some q
  | MVal.inf => none
  | MVal.nan => none

/-- np.mean of a pandas Series holding the given values: NaN entries are
skipped (skipna=True), a +infinity entry makes the mean +infinity (every
finite entry fed to it here is nonnegative, so infinities cannot cancel),
and the mean of no surviving entries is NaN. -/
def seriesMean (terms : List MVal) : MVal :=
  if MVal.inf ∈ terms then MVal.inf
  else if (terms.filterMap finPart).isEmpty then MVal.nan
  else MVal.fin ((terms.filterMap finPart).sum / ((terms.filterMap finPart).length : ℚ))

def mvalScale (c : ℚ) : MVal → MVal
  | MVal.fin q => MVal.fin (q * c)
  | MVal.inf => MVal.inf
  | MVal.nan => MVal.nan

/-- The MAPE of positionally aligned (actual, predicted) pairs:
np.mean(np.abs((actual - predicted) / actual)) * 100. -/
def mapeOfPairs (pairs : List (ℚ × ℚ)) : MVal :=
  mvalScale 100 (seriesMean (pairs.map mapeTerm))

/-- Embeds calculate_accuracy_metrics (src lines 43-48) on positionally
aligned sequences. Components: (MAPE, mean of squared errors, MAE); the
RMSE of the source is the square root of the middle component, which is
taken at the theorem level since square roots leave the rationals. -/
def calculate_accuracy_metrics (actual predicted : List ℚ) :
    MVal × MVal × MVal :=
  let pairs := actual.zip predicted
  (mapeOfPairs pairs,
   seriesMean (pairs.map (fun ap => MVal.fin ((ap.1 - ap.2) ^ 2))),
   seriesMean (pairs.map (fun ap => MVal.fin |ap.1 - ap.2|)))

/-- Embeds generate_insights (src lines 88-90): the single overall growth
percentage between the first and the last forecast row; none models the
IndexError raised by iloc on an empty frame. -/
def generate_insights (yhat : List ℚ) : Option ℚ :=
  match yhat with
  | [] => none
  | y0 :: rest =>
    some (((y0 :: rest).getLast (List.cons_ne_nil y0 rest) - y0) / y0 * 100)

/-- Modelled from the spec: the GrowthAnalyzer component (spec section 4.5)
is absent from src; per the spec it produces, for each position t, one
record whose growth is (value[t] - value[t-lag]) / value[t-lag] * 100 when
a value exists lag positions earlier, and is undefined (none) otherwise. -/
def growthAnalyzerSpec (series : List ℚ) (lag : Nat) : List (Option ℚ) :=
  (List.range series.length).map (fun t =>
    if lag ≤ t then
      match series.get? (t - lag), series.get? t with
      | some prev, some cur => some ((cur - prev) / prev * 100)
      | _, _ => none
    else none)

def toLowerCh (c : Char) : Char :=
  if 'A' ≤ c ∧ c ≤ 'Z' then Char.ofNat (c.toNat + 32) else c

def monthNum (s : String) : Option Nat :=
  if s = "jan" then some 1 else if s = "feb" then some 2
  else if s = "mar" then some 3 else if s = "apr" then some 4
  else if s = "may" then some 5 else if s = "jun" then some 6
  else if s = "jul" then some 7 else if s = "aug" then some 8
  else if s = "sep" then some 9 else if s = "oct" then some 10
  else if s = "nov" then some 11 else if s = "dec" then some 12
  else none

/-- Embeds pd.to_datetime(s, format=%b-%y, errors=coerce): a three-letter
month abbreviation (case-insensitive), a hyphen, and a two-digit year
(00-68 maps to 20xx, 69-99 to 19xx, the strptime %y rule); the parsed
timestamp is the first day of that month. Anything else coerces to NaT
(none). -/
def parseMonthYear (s : String) : Option Date :=
  match s.toList with
  | [a, b, c, '-', d1, d2] =>
    match monthNum (String.mk [toLowerCh a, toLowerCh b, toLowerCh c]) with
    | some m =>
      if d1.isDigit && d2.isDigit then
        let yy := (d1.toNat - 48) * 10 + (d2.toNat - 48)
        some ⟨(if yy ≤ 68 then 2000 + yy else 1900 + yy), m, 1⟩
      else none
    | none => none
  | _ => none

def digitsVal (ds : List Char) : Nat :=
  ds.foldl (fun acc c => acc * 10 + (c.toNat - 48)) 0

/-- Embeds the decimal-literal fragment of pd.to_numeric(s, errors=coerce)
exercised here: optional sign, integer digits, optional fractional digits;
any other shape coerces to NaN (none). -/
def parseNumericStr (s : String) : Option ℚ :=
  let go : List Char → Option ℚ := fun cs =>
    let intPart := cs.takeWhile Char.isDigit
    let rest := cs.drop intPart.length
    match rest with
    | [] => if intPart.isEmpty then none else some (digitsVal intPart : ℚ)
    | '.' :: fr =>
      if fr.all Char.isDigit && !(intPart.isEmpty && fr.isEmpty) then
        some ((digitsVal intPart : ℚ) + (digitsVal fr : ℚ) / (10 ^ fr.length : ℚ))
      else none
    | _ => none
  match s.toList with
  | '-' :: cs => (go cs).map (fun q => -q)
  | '+' :: cs => go cs
  | cs => go cs

/-- One raw row of the uploaded two-column table: both cells coerced, the
row surviving only if both coercions succeed (the dropna of line 126). -/
def parseRow (r : String × String) : Option (Date × ℚ) :=
  match parseMonthYear r.1, parseNumericStr r.2 with
  | some d, some v => some (d, v)
  | _, _ => none

def noValidMsg : String :=
  "No valid data found after processing. Check your file for correct formatting."

/-- Embeds main lines 122-130: coerce the date column and the numeric
column, drop every row where either coercion failed, and fail if and only
if nothing survives. -/
def validateRows (rows : List (String × String)) :
    Except String (List (Date × ℚ)) :=
  let kept := rows.filterMap parseRow
  if kept.isEmpty then Except.error noValidMsg else Except.ok kept

def okRows : Except String (List (Date × ℚ)) → List (Date × ℚ)
  | Except.ok l => l
  | Except.error _ => []

def isOkB : Except String (List (Date × ℚ)) → Bool
  | Except.ok _ => true
  | Except.error _ => false

/-- Adjacent timestamps strictly increase (hence also all distinct). -/
def strictlyIncreasingKeys (l : List Date) : Bool :=
  (l.zip l.tail).all (fun p => decide (dateKey p.1 < dateKey p.2))

/- Concrete fixtures used by the closed theorems. -/

def histDf : List (Date × ℚ) := [(⟨2023, 1, 1⟩, 100), (⟨2023, 2, 1⟩, 110)]

def pred0 : Date → ℚ × ℚ × ℚ := fun _ => (0, 0, 0)

def pc7 : Date → ℚ × ℚ × ℚ := fun _ => (52/5, 47/5, 57/5)

def pc10 : Date → ℚ × ℚ × ℚ := fun _ => (7/5, 1, 2)

def oneDf : List (Date × ℚ) := [(⟨2023, 1, 1⟩, 100)]

def abcRows : List (String × String) :=
  [("Jan-23", "100"), ("Feb-23", "abc"), ("Mar-23", "120")]

def unsortedRows : List (String × String) :=
  [("Feb-23", "110"), ("Jan-23", "100"), ("Feb-23", "120")]

def dupSurvivors : List (Date × ℚ) :=
  [(⟨2023, 2, 1⟩, 110), (⟨2023, 1, 1⟩, 100), (⟨2023, 2, 1⟩, 120)]

def oneRow : List (String × String) := [("Jan-23", "100")]

/- Helper lemmas. -/

theorem sumSq_eq_zero {l : List ℚ} {m : ℚ}
    (h : (l.map (fun x => (x - m) ^ 2)).sum = 0) : ∀ x ∈ l, x = m := by
  induction l with
  | nil => intro x hx; exact absurd hx (List.not_mem_nil x)
  | cons a t ih =>
    have h2 : 0 ≤ (t.map (fun x => (x - m) ^ 2)).sum := by
      apply List.sum_nonneg
      intro y hy
      rcases List.mem_map.1 hy with ⟨z, _, rfl⟩
      exact sq_nonneg _
    have h1 : 0 ≤ (a - m) ^ 2 := sq_nonneg _
    rw [List.map_cons, List.sum_cons] at h
    have ha : (a - m) ^ 2 = 0 := by linarith
    have ht : (t.map (fun x => (x - m) ^ 2)).sum = 0 := by linarith
    intro x hx
    rcases List.mem_cons.1 hx with rfl | hx
    · exact sub_eq_zero.1 (sq_eq_zero_iff.1 ha)
    · exact ih ht x hx

theorem two_sigma_iff {S c d : ℝ} (hS : 0 ≤ S) (hc : 0 < c) :
    4 * S < d ^ 2 * c ↔ 2 * Real.sqrt (S / c) < |d| := by
  have h2 : Real.sqrt 4 = 2 := by
    rw [show (4:ℝ) = 2 ^ 2 by norm_num, Real.sqrt_sq (by norm_num : (0:ℝ) ≤ 2)]
  have h4 : (0:ℝ) ≤ 4 * (S / c) := by
    apply mul_nonneg (by norm_num)
    exact div_nonneg hS hc.le
  rw [show (2:ℝ) * Real.sqrt (S / c) = Real.sqrt (4 * (S / c)) by
        rw [Real.sqrt_mul (by norm_num : (0:ℝ) ≤ 4), h2],
      ← Real.sqrt_sq_eq_abs d, Real.sqrt_lt_sqrt_iff h4, ← mul_div_assoc,
      div_lt_iff₀ hc]

theorem qfloor_eq (q : ℚ) : qfloor q = ⌊q⌋ := Rat.floor_def.symm

theorem qround_floorform (q : ℚ) : qround q =
    (if q - ⌊q⌋ < 1/2 then (⌊q⌋ : ℚ)
     else if 1/2 < q - ⌊q⌋ then (⌊q⌋ : ℚ) + 1
     else if ⌊q⌋ % 2 = 0 then (⌊q⌋ : ℚ) else (⌊q⌋ : ℚ) + 1) := by
  simp only [qround, qfloor_eq]

theorem qround_lb (q : ℚ) : (⌊q⌋ : ℚ) ≤ qround q := by
  rw [qround_floorform]
  split_ifs <;> linarith

theorem qround_ub (q : ℚ) : qround q ≤ (⌊q⌋ : ℚ) + 1 := by
  rw [qround_floorform]
  split_ifs <;> linarith

theorem qround_mono {a b : ℚ} (hab : a ≤ b) : qround a ≤ qround b := by
  rcases lt_or_le ⌊a⌋ ⌊b⌋ with hf | hf
  · have h3 : (⌊a⌋ : ℚ) + 1 ≤ (⌊b⌋ : ℚ) := by exact_mod_cast Int.lt_iff_add_one_le.1 hf
    have h1 := qround_ub a
    have h2 := qround_lb b
    linarith
  · have hfe : ⌊a⌋ = ⌊b⌋ := le_antisymm (Int.floor_le_floor hab) hf
    have hfeq : ((⌊a⌋ : ℤ) : ℚ) = ((⌊b⌋ : ℤ) : ℚ) := by exact_mod_cast hfe
    by_cases ha1 : a - (⌊a⌋ : ℚ) < 1/2
    · have h1 : qround a = (⌊a⌋ : ℚ) := by rw [qround_floorform, if_pos ha1]
      have h2 := qround_lb b
      rw [h1, hfeq]
      exact h2
    · by_cases hb2 : 1/2 < b - (⌊b⌋ : ℚ)
      · have h1 : qround b = (⌊b⌋ : ℚ) + 1 := by
          rw [qround_floorform, if_neg (not_lt.2 hb2.le), if_pos hb2]
        have h2 := qround_ub a
        rw [h1, ← hfeq]
        exact h2
      · have e1 : 1/2 ≤ a - (⌊a⌋ : ℚ) := not_lt.1 ha1
        have e2 : b - (⌊b⌋ : ℚ) ≤ 1/2 := not_lt.1 hb2
        have hba : a = b := by linarith
        rw [hba]

theorem getLast?_map_range {α : Type} (f : Nat → α) (n : Nat) (h : 0 < n) :
    ((List.range n).map f).getLast? = some (f (n - 1)) := by
  rw [List.getLast?_eq_getElem?, List.getElem?_map, List.length_map,
    List.length_range, List.getElem?_range (by omega)]
  rfl

theorem mapeTerm_ne_inf {ap : ℚ × ℚ} (h : ap.1 = 0 → ap.2 = 0) :
    mapeTerm ap ≠ MVal.inf := by
  by_cases h1 : ap.1 = 0
  · simp [mapeTerm, h1, h h1]
  · simp [mapeTerm, h1]

theorem inf_not_mem_mapeTerms {pairs : List (ℚ × ℚ)}
    (h : ∀ ap ∈ pairs, ap.1 = 0 → ap.2 = 0) :
    MVal.inf ∉ pairs.map mapeTerm := by
  intro hmem
  rcases List.mem_map.1 hmem with ⟨ap, hap, he⟩
  exact mapeTerm_ne_inf (h ap hap) he

theorem filterMap_fin_drop (pairs : List (ℚ × ℚ))
    (h : ∀ ap ∈ pairs, ap.1 = 0 → ap.2 = 0) :
    (pairs.map mapeTerm).filterMap finPart =
      ((pairs.filter (fun ap => decide (ap.1 ≠ 0))).map mapeTerm).filterMap finPart := by
  induction pairs with
  | nil => rfl
  | cons ap t ih =>
    have ht : ∀ x ∈ t, x.1 = 0 → x.2 = 0 := fun x hx => h x (List.mem_cons_of_mem _ hx)
    have iht := ih ht
    by_cases hz : ap.1 = 0
    · have h2 : ap.2 = 0 := h ap (List.mem_cons_self ap t) hz
      rw [List.map_cons, List.filterMap_cons,
        show mapeTerm ap = MVal.nan by simp [mapeTerm, hz, h2],
        show List.filter (fun ap => decide (ap.1 ≠ 0)) (ap :: t) =
            List.filter (fun ap => decide (ap.1 ≠ 0)) t by
          simp [List.filter_cons, hz]]
      exact iht
    · rw [List.map_cons, List.filterMap_cons,
        show List.filter (fun ap => decide (ap.1 ≠ 0)) (ap :: t) =
            ap :: List.filter (fun ap => decide (ap.1 ≠ 0)) t by
          simp [List.filter_cons, hz],
        List.map_cons, List.filterMap_cons]
      rw [show mapeTerm ap = MVal.fin |(ap.1 - ap.2) / ap.1| by simp [mapeTerm, hz]]
      simp only [finPart]
      rw [iht]

theorem validateRows_ok_of_mem {rows : List (String × String)}
    {r : String × String} {dv : Date × ℚ} (hr : r ∈ rows)
    (hdv : parseRow r = some dv) :
    validateRows rows = Except.ok (rows.filterMap parseRow) ∧
      dv ∈ rows.filterMap parseRow := by
  have hmem : dv ∈ rows.filterMap parseRow := List.mem_filterMap.2 ⟨r, hr, hdv⟩
  have hne : (rows.filterMap parseRow).isEmpty = false := by
    cases hk : rows.filterMap parseRow with
    | nil =>
      rw [hk] at hmem
      exact absurd hmem (List.not_mem_nil dv)
    | cons x t => rfl
  refine ⟨?_, hmem⟩
  simp [validateRows, hne]

theorem ok_of_isOkB (e : Except String (List (Date × ℚ)))
    (h : isOkB e = true) : e = Except.ok (okRows e) := by
  cases e with
  | ok l => rfl
  | error m => simp [isOkB] at h

/- Claim theorems. -/

/-- C1: the claim says the accuracy metrics compare in-sample fitted values
against the historical actuals over the same timestamps. In the code the
forecast returned by forecast_traffic contains only rows dated strictly
after the last historical date, so main compares future predictions against
past actuals at disjoint timestamps; moreover a self-comparison whose
actual value is zero gives a NaN MAPE, not zero. Evaluated at the failing
input histDf with horizon 6. -/
theorem C1_future_predictions_vs_history :
    ((forecast_traffic histDf 6 pred0).map ForecastRow.ds).all
        (fun d => decide (d ∉ histDf.map Prod.fst)) = true ∧
    (forecast_traffic histDf 6 pred0).length = 6 ∧
    (pipelineMetricInput histDf 6 pred0).1.length = 2 ∧
    (calculate_accuracy_metrics [0] [0]).1 = MVal.nan := by decide

/-- C2 counterexample: an aligned pair with a zero actual and a nonzero
prediction makes the MAPE aggregate +infinity, so zero actuals are not
excluded and the aggregate is not always finite. -/
theorem C2_mape_infinite_on_zero_actual :
    (calculate_accuracy_metrics [0, 100] [50, 100]).1 = MVal.inf ∧
    MVal.inf ≠ MVal.fin 0 := by decide

/-- C2 amended: a position whose actual is zero is excluded from the MAPE
average only when its prediction is also zero (the 0/0 NaN is skipped by
the mean); a position with a zero actual and a nonzero prediction makes the
whole MAPE aggregate infinite. -/
theorem C2_mape_amended (actual predicted : List ℚ) :
    ((∃ ap ∈ actual.zip predicted, ap.1 = 0 ∧ ap.2 ≠ 0) →
      (calculate_accuracy_metrics actual predicted).1 = MVal.inf) ∧
    ((∀ ap ∈ actual.zip predicted, ap.1 = 0 → ap.2 = 0) →
      (calculate_accuracy_metrics actual predicted).1 =
        mapeOfPairs ((actual.zip predicted).filter (fun ap => decide (ap.1 ≠ 0)))) := by
  constructor
  · rintro ⟨ap, hap, h0, hne⟩
    have hterm : mapeTerm ap = MVal.inf := by simp [mapeTerm, h0, hne]
    have hmem : MVal.inf ∈ (actual.zip predicted).map mapeTerm :=
      hterm ▸ List.mem_map_of_mem mapeTerm hap
    show mapeOfPairs (actual.zip predicted) = MVal.inf
    rw [mapeOfPairs, seriesMean, if_pos hmem]
    rfl
  · intro h
    have h2 : ∀ ap ∈ (actual.zip predicted).filter (fun ap => decide (ap.1 ≠ 0)),
        ap.1 = 0 → ap.2 = 0 :=
      fun ap hap => h ap (List.mem_of_mem_filter hap)
    have e := filterMap_fin_drop (actual.zip predicted) h
    show mapeOfPairs (actual.zip predicted) = _
    simp only [mapeOfPairs, seriesMean, if_neg (inf_not_mem_mapeTerms h),
      if_neg (inf_not_mem_mapeTerms h2), e]

/-- C2 witness: at actual [0, 2] and predicted [0, 1] the 0/0 position is
skipped and the MAPE equals the MAPE of the zero-actual-free pairs. -/
theorem C2_mape_amended_witness :
    (calculate_accuracy_metrics [0, 2] [0, 1]).1 =
      mapeOfPairs (([((0:ℚ), (0:ℚ)), ((2:ℚ), (1:ℚ))]).filter
        (fun ap => decide (ap.1 ≠ 0))) :=
  (C2_mape_amended [0, 2] [0, 1]).2 (by decide)

/-- C3 counterexample: an input batch that is out of order and has a
repeated timestamp validates to survivors kept in input order with both
occurrences of the duplicate retained, so the validated timestamps are
neither unique nor monotonically increasing. -/
theorem C3_no_sort_dedup_counterexample :
    okRows (validateRows unsortedRows) = dupSurvivors ∧
    isOkB (validateRows unsortedRows) = true ∧
    strictlyIncreasingKeys (dupSurvivors.map Prod.fst) = false ∧
    ((dupSurvivors.map Prod.fst).filter
        (fun d => decide (d = ⟨2023, 2, 1⟩))).length = 2 := by decide

/-- C3 amended: the validator neither sorts nor de-duplicates; the
validated series is exactly the raw rows with unparsable ones removed, in
input order and with duplicate timestamps all retained. -/
theorem C3_order_preserving_amended (rows : List (String × String))
    (l : List (Date × ℚ)) (h : validateRows rows = Except.ok l) :
    l = rows.filterMap parseRow := by
  by_cases hk : (rows.filterMap parseRow).isEmpty = true
  · simp only [validateRows] at h
    rw [if_pos hk] at h
    exact (Except.noConfusion h)
  · simp only [validateRows] at h
    rw [if_neg hk] at h
    injection h with h2
    exact h2.symm

/-- C3 witness: the duplicated, unsorted batch maps to exactly its parsed
rows in input order. -/
theorem C3_order_preserving_witness :
    dupSurvivors = unsortedRows.filterMap parseRow :=
  C3_order_preserving_amended unsortedRows dupSurvivors
    ((ok_of_isOkB _ (by decide)).trans (congrArg Except.ok (by decide)))

/-- C4 counterexample: an input with exactly one valid point passes
validation (the code only rejects an empty survivor set), contradicting
the claim that validation succeeds only with at least 2 surviving rows. -/
theorem C4_single_point_passes_validation :
    isOkB (validateRows oneRow) = true ∧
    okRows (validateRows oneRow) = [(⟨2023, 1, 1⟩, 100)] ∧
    (okRows (validateRows oneRow)).length = 1 := by decide

/-- C4 amended: validation succeeds exactly when at least one row survives
parsing; in particular a single surviving point passes validation (the
at-least-2 requirement is enforced only downstream, by the model-fit
library call outside the validator, whose raised error is what prevents a
forecast table). -/
theorem C4_validator_amended :
    (∀ rows : List (String × String),
      isOkB (validateRows rows) = rows.any (fun r => (parseRow r).isSome)) ∧
    (∀ r dv, parseRow r = some dv → validateRows [r] = Except.ok [dv]) := by
  constructor
  · intro rows
    by_cases hk : rows.filterMap parseRow = []
    · have h1 : ∀ r ∈ rows, parseRow r = none := List.filterMap_eq_nil_iff.1 hk
      have h2 : rows.any (fun r => (parseRow r).isSome) = false := by
        rw [List.any_eq_false]
        intro r hr
        simp [h1 r hr]
      rw [h2]
      simp [validateRows, hk, isOkB]
    · obtain ⟨dv, hdv⟩ : ∃ dv, dv ∈ rows.filterMap parseRow := by
        cases hkk : rows.filterMap parseRow with
        | nil => exact absurd hkk hk
        | cons x t => exact ⟨x, List.mem_cons_self x t⟩
      rcases List.mem_filterMap.1 hdv with ⟨r, hr, hpr⟩
      rw [(validateRows_ok_of_mem hr hpr).1]
      have h2 : rows.any (fun r => (parseRow r).isSome) = true :=
        List.any_eq_true.2 ⟨r, hr, by simp [hpr]⟩
      rw [h2]
      rfl
  · intro r dv hdv
    rw [(validateRows_ok_of_mem (List.mem_singleton_self r) hdv).1]
    congr 1
    simp [List.filterMap_cons, hdv]

/-- C4 witness: a single valid row validates to its one parsed point. -/
theorem C4_validator_witness :
    validateRows [("Jan-23", "100")] = Except.ok [(⟨2023, 1, 1⟩, 100)] :=
  C4_validator_amended.2 ("Jan-23", "100") (⟨2023, 1, 1⟩, 100) (by decide)

/-- C5: a row whose date label or value does not parse is dropped on its
own without failing the batch; the batch as a whole fails (with the
no-valid-data message) exactly when every row is dropped; and the concrete
batch with one "abc" value among valid rows validates with just that row
removed. -/
theorem C5_row_drop_not_fatal :
    (∀ rows r dv, r ∈ rows → parseRow r = some dv →
      dv ∈ okRows (validateRows rows) ∧ isOkB (validateRows rows) = true) ∧
    (∀ rows : List (String × String),
      isOkB (validateRows rows) = false ↔ ∀ r ∈ rows, parseRow r = none) ∧
    (∀ rows : List (String × String),
      (∀ r ∈ rows, parseRow r = none) →
        validateRows rows = Except.error noValidMsg) ∧
    (okRows (validateRows abcRows) = [(⟨2023, 1, 1⟩, 100), (⟨2023, 3, 1⟩, 120)] ∧
      isOkB (validateRows abcRows) = true) := by
  have herr : ∀ rows : List (String × String),
      (∀ r ∈ rows, parseRow r = none) →
        validateRows rows = Except.error noValidMsg := by
    intro rows h
    have hk : rows.filterMap parseRow = [] := List.filterMap_eq_nil_iff.2 h
    simp [validateRows, hk]
  refine ⟨?_, ?_, herr, by decide, by decide⟩
  · intro rows r dv hr hdv
    have h := validateRows_ok_of_mem hr hdv
    rw [h.1]
    exact ⟨h.2, rfl⟩
  · intro rows
    constructor
    · intro h r hr
      by_contra hne
      rcases Option.ne_none_iff_exists'.1 hne with ⟨dv, hdv⟩
      rw [(validateRows_ok_of_mem hr hdv).1] at h
      simp [isOkB] at h
    · intro h
      rw [herr rows h]
      rfl

/-- C5 witness: in the "abc" batch, the valid row Jan-23 parses and lands
in the successfully validated output. -/
theorem C5_row_drop_witness :
    ((⟨2023, 1, 1⟩ : Date), (100 : ℚ)) ∈ okRows (validateRows abcRows) ∧
      isOkB (validateRows abcRows) = true :=
  C5_row_drop_not_fatal.1 abcRows ("Jan-23", "100") (⟨2023, 1, 1⟩, 100)
    (by decide) (by decide)

/-- C6: with history ending at the month-start date Feb-23 and horizon 6,
the first projected row is dated 2023-02-28 — the same calendar month as
the last historical point — because the month-end frequency of the future
date range defeats the ds-greater-than-last-date filter that, per the
code comment, was meant to exclude redundant forecasting for existing
months. The projection still has exactly 6 strictly increasing entries. -/
theorem C6_last_month_repredicted :
    ((forecast_traffic histDf 6 pred0).map (fun r => (r.ds.year, r.ds.month))).head? =
      some ((lastDateOf (histDf.map Prod.fst)).year,
            (lastDateOf (histDf.map Prod.fst)).month) ∧
    (forecast_traffic histDf 6 pred0).length = 6 ∧
    strictlyIncreasingKeys ((forecast_traffic histDf 6 pred0).map ForecastRow.ds) = true := by
  decide

theorem qround_52_5 : qround (52/5 : ℚ) = 10 := by
  rw [qround_floorform]
  norm_num

theorem qround_47_5 : qround (47/5 : ℚ) = 9 := by
  rw [qround_floorform]
  norm_num

theorem qround_57_5 : qround (57/5 : ℚ) = 11 := by
  rw [qround_floorform]
  norm_num

theorem histDf_future_dates :
    ((make_future_dataframe (histDf.map Prod.fst) 6).filter
      (fun d => decide (dateKey (lastDateOf (histDf.map Prod.fst)) < dateKey d))) =
    [⟨2023, 2, 28⟩, ⟨2023, 3, 31⟩, ⟨2023, 4, 30⟩, ⟨2023, 5, 31⟩,
     ⟨2023, 6, 30⟩, ⟨2023, 7, 31⟩] := by decide

/-- C7 counterexample: with a model predicting the continuous value 52/5
(10.4) everywhere, the predictions list handed to the accuracy-metric
computation is the rounded [10, 10], not the continuous values, so
rounding does alter the values used for metric computation. -/
theorem C7_metrics_use_rounded :
    (pipelineMetricInput histDf 6 pc7).2 = [10, 10] ∧ ((52 : ℚ)/5 ≠ 10) := by
  constructor
  · simp only [pipelineMetricInput, forecast_traffic]
    rw [histDf_future_dates]
    simp [histDf, pc7, qround_52_5]
  · norm_num

/-- C7 amended: the forecast columns are rounded in place before the
forecast is returned, and both the displayed/exported table and the
accuracy-metric computation consume the rounded values; the continuous
values are discarded. -/
theorem C7_rounding_amended (df : List (Date × ℚ)) (period : Nat)
    (predict : Date → ℚ × ℚ × ℚ) :
    (∀ r ∈ forecast_traffic df period predict,
      r.yhat = qround (predict r.ds).1 ∧
      r.yhat_lower = qround (predict r.ds).2.1 ∧
      r.yhat_upper = qround (predict r.ds).2.2) ∧
    (pipelineMetricInput df period predict).2 =
      ((forecast_traffic df period predict).map ForecastRow.yhat).take df.length := by
  constructor
  · intro r hr
    simp only [forecast_traffic] at hr
    rcases List.mem_map.1 hr with ⟨d, _, rfl⟩
    exact ⟨rfl, rfl, rfl⟩
  · simp [pipelineMetricInput]

theorem c7_first_row_mem :
    (⟨⟨2023, 2, 28⟩, 10, 9, 11⟩ : ForecastRow) ∈ forecast_traffic histDf 6 pc7 := by
  simp only [forecast_traffic]
  rw [histDf_future_dates]
  simp [pc7, qround_52_5, qround_47_5, qround_57_5]

/-- C7 witness: the first projected row under the 10.4/9.4/11.4 model
carries the rounded values 10/9/11. -/
theorem C7_rounding_witness :
    (⟨⟨2023, 2, 28⟩, 10, 9, 11⟩ : ForecastRow).yhat = qround (pc7 ⟨2023, 2, 28⟩).1 ∧
    (⟨⟨2023, 2, 28⟩, 10, 9, 11⟩ : ForecastRow).yhat_lower = qround (pc7 ⟨2023, 2, 28⟩).2.1 ∧
    (⟨⟨2023, 2, 28⟩, 10, 9, 11⟩ : ForecastRow).yhat_upper = qround (pc7 ⟨2023, 2, 28⟩).2.2 :=
  (C7_rounding_amended histDf 6 pc7).1 ⟨⟨2023, 2, 28⟩, 10, 9, 11⟩ c7_first_row_mem

/-- C8: anomaly detection flags exactly the points whose absolute deviation
from the series mean, divided by the sample standard deviation
sqrt(sumSqDev / (n - 1)), exceeds 2; a zero standard deviation (constant
series) flags nothing; and the output is a sublist of the input, hence
preserves the input series order. -/
theorem C8_two_sigma_rule (data : List (Date × ℚ)) :
    List.Sublist (detect_anomalies data) data ∧
    (sumSqDev (data.map Prod.snd) = 0 → detect_anomalies data = []) ∧
    (∀ p ∈ data,
      (p ∈ detect_anomalies data ↔
        2 * Real.sqrt (((sumSqDev (data.map Prod.snd) : ℚ) : ℝ) /
            ((data.length : ℝ) - 1)) <
          |((p.2 : ℚ) : ℝ) - ((sampleMean (data.map Prod.snd) : ℚ) : ℝ)|)) := by
  refine ⟨List.filter_sublist data, ?_, ?_⟩
  · intro h0
    apply List.filter_eq_nil_iff.2
    intro p hp
    have hx : p.2 = sampleMean (data.map Prod.snd) := by
      apply sumSq_eq_zero (m := sampleMean (data.map Prod.snd)) ?_ p.2
        (List.mem_map_of_mem Prod.snd hp)
      exact h0
    simp only [zFlag, decide_eq_true_eq, not_lt]
    rw [h0, hx]
    simp
  · intro p hp
    have hmemf : p ∈ detect_anomalies data ↔
        p ∈ data ∧ zFlag (data.map Prod.snd) p.2 = true := List.mem_filter
    rw [hmemf]
    simp only [hp, true_and, zFlag, decide_eq_true_eq]
    have hlen : (data.map Prod.snd).length = data.length := List.length_map _ _
    rcases Nat.lt_or_ge data.length 2 with hn | hn
    · have h1 : data.length = 1 := by
        have : 0 < data.length := List.length_pos.2 (List.ne_nil_of_mem hp)
        omega
      rcases List.length_eq_one.1 h1 with ⟨a, rfl⟩
      rcases List.mem_singleton.1 hp with rfl
      constructor
      · intro hcon
        rw [show ([p].map Prod.snd) = [p.2] from rfl] at hcon
        norm_num [sumSqDev, sampleMean] at hcon
      · intro hcon
        rw [show ([p].map Prod.snd) = [p.2] from rfl] at hcon
        norm_num [sumSqDev, sampleMean] at hcon
    · have hc : (0:ℝ) < (data.length : ℝ) - 1 := by
        have h2 : (2:ℝ) ≤ (data.length : ℝ) := by exact_mod_cast hn
        linarith
      have hS : (0:ℚ) ≤ sumSqDev (data.map Prod.snd) := by
        apply List.sum_nonneg
        intro y hy
        rcases List.mem_map.1 hy with ⟨z, _, rfl⟩
        exact sq_nonneg _
      have hSr : (0:ℝ) ≤ ((sumSqDev (data.map Prod.snd) : ℚ) : ℝ) := by
        exact_mod_cast hS
      have cast_iff :
          (4 * sumSqDev (data.map Prod.snd) <
            (p.2 - sampleMean (data.map Prod.snd)) ^ 2 *
              (((data.map Prod.snd).length : ℚ) - 1)) ↔
          (4 * ((sumSqDev (data.map Prod.snd) : ℚ) : ℝ) <
            (((p.2 : ℚ) : ℝ) - ((sampleMean (data.map Prod.snd) : ℚ) : ℝ)) ^ 2 *
              ((data.length : ℝ) - 1)) := by
        rw [hlen]
        constructor
        · intro h
          exact_mod_cast h
        · intro h
          exact_mod_cast h
      rw [cast_iff]
      exact two_sigma_iff hSr hc

/-- C8 witness: a constant series has zero standard deviation and no
anomalies are flagged. -/
theorem C8_two_sigma_witness :
    detect_anomalies [(⟨2023, 1, 1⟩, (5:ℚ)), (⟨2023, 2, 1⟩, 5)] = [] :=
  (C8_two_sigma_rule [(⟨2023, 1, 1⟩, (5:ℚ)), (⟨2023, 2, 1⟩, 5)]).2.1
    (by norm_num [sumSqDev, sampleMean])

/-- C9 counterexample: on a 2-point series the spec growth analysis (lag
12) yields all-undefined records, but the code has no lag-12 analysis: its
generate_insights returns the single defined growth figure 10 percent. -/
theorem C9_no_lag12_growth :
    growthAnalyzerSpec [100, 110] 12 = [none, none] ∧
    generate_insights [100, 110] = some 10 ∧
    (some (10:ℚ) ≠ (none : Option ℚ)) := by
  refine ⟨by decide, ?_, by simp⟩
  show some ((((110:ℚ)) - 100) / 100 * 100) = some 10
  norm_num

/-- C9 amended: the code computes no per-timestamp lag-12 growth records;
generate_insights returns the one overall percentage between the first and
last forecast values, which coincides with the spec growth analyzer taken
at its final record with the lag equal to the whole span; it is none only
for an empty forecast. -/
theorem C9_insights_amended (y0 : ℚ) (rest : List ℚ) :
    generate_insights (y0 :: rest) =
      some (((y0 :: rest).getLast (List.cons_ne_nil y0 rest) - y0) / y0 * 100) ∧
    generate_insights (y0 :: rest) =
      ((growthAnalyzerSpec (y0 :: rest) ((y0 :: rest).length - 1)).getLast?).join ∧
    generate_insights ([] : List ℚ) = none := by
  refine ⟨rfl, ?_, rfl⟩
  have hlen : (y0 :: rest).length - 1 = rest.length := by simp
  rw [growthAnalyzerSpec, getLast?_map_range _ _ (by simp), hlen]
  have hg : (y0 :: rest).get? rest.length =
      some ((y0 :: rest).getLast (List.cons_ne_nil y0 rest)) := by
    rw [List.get?_eq_getElem?, show rest.length = (y0 :: rest).length - 1 from by simp,
      ← List.getLast?_eq_getElem?, List.getLast?_eq_getLast]
  simp [generate_insights, hg, Nat.sub_self, List.getLast_eq_getElem]

/-- C10: the table column labeled Optimistic Scenario holds the rounded
yhat_lower and the column labeled Pessimistic Scenario holds the rounded
yhat_upper; assuming the library model produces lower bounds at most its
upper bounds (the ForecastPoint invariant of the spec), every table row
has Optimistic at most Pessimistic, since rounding is monotone. -/
theorem C10_optimistic_le_pessimistic (df : List (Date × ℚ)) (period : Nat)
    (predict : Date → ℚ × ℚ × ℚ)
    (h : ∀ d, (predict d).2.1 ≤ (predict d).2.2) :
    ∀ row ∈ buildForecastTable (forecast_traffic df period predict),
      row.optimistic ≤ row.pessimistic ∧
      ∃ r ∈ forecast_traffic df period predict,
        row.date = r.ds ∧ row.optimistic = r.yhat_lower ∧
        row.pessimistic = r.yhat_upper := by
  intro row hrow
  rcases List.mem_map.1 hrow with ⟨r, hr, rfl⟩
  refine ⟨?_, r, hr, rfl, rfl, rfl⟩
  simp only [forecast_traffic] at hr
  rcases List.mem_map.1 hr with ⟨d, _, rfl⟩
  exact qround_mono (h d)

theorem qround_7_5 : qround (7/5 : ℚ) = 1 := by
  rw [qround_floorform]
  norm_num

theorem qround_one : qround (1 : ℚ) = 1 := by
  rw [qround_floorform]
  norm_num

theorem qround_two : qround (2 : ℚ) = 2 := by
  rw [qround_floorform]
  norm_num

theorem oneDf_future_dates :
    ((make_future_dataframe (oneDf.map Prod.fst) 1).filter
      (fun d => decide (dateKey (lastDateOf (oneDf.map Prod.fst)) < dateKey d))) =
    [⟨2023, 1, 31⟩] := by decide

theorem c10_row_mem :
    (⟨⟨2023, 1, 31⟩, 1, 1, 2⟩ : TableRow) ∈
      buildForecastTable (forecast_traffic oneDf 1 pc10) := by
  simp only [buildForecastTable, forecast_traffic]
  rw [oneDf_future_dates]
  simp [pc10, qround_7_5, qround_one, qround_two]

/-- C10 witness: with a one-point history, horizon 1, and continuous
bounds 1 and 2, the single table row has Optimistic 1 at most
Pessimistic 2. -/
theorem C10_optimistic_witness :
    (⟨⟨2023, 1, 31⟩, 1, 1, 2⟩ : TableRow).optimistic ≤
      (⟨⟨2023, 1, 31⟩, 1, 1, 2⟩ : TableRow).pessimistic :=
  (C10_optimistic_le_pessimistic oneDf 1 pc10 (fun d => by norm_num [pc10])
    ⟨⟨2023, 1, 31⟩, 1, 1, 2⟩ c10_row_mem).1
